import Mathlib

/-!
Shallow embedding of the session layer of a userspace (FUSE) filesystem
framework (`src/session.rs`): the `Session` data structure, its constructor,
the receive-dispatch loop `run`, the teardown destructors, and the
`BackgroundSession` handle.

Modelling conventions:
* Machine integers (`uint`, `c_int`) become `Nat` / `Int`; no overflow is
  relevant at the sizes involved.
* The kernel channel's behaviour is external nondeterminism: a `run` is
  modelled against a finite list of `ReadResult` events (each event is what
  one blocking `Channel.receive` call yields).  Exhausting the list while the
  loop would keep reading is recorded as the `pending` exit (the real loop
  would block on the next read).
* `panic!` is modelled as a distinguished exit value carrying the error code
  (for `run`) or as `Except.error` carrying the message (for `Session::new`);
  the surrounding execution context terminates, so nothing further happens.
* Observable side effects (bytes handed to the decoder, backend dispatches,
  log lines, unmount syscalls) are recorded in explicit effect lists, in
  program order.
* The request decoder (`request`) and the dispatcher (`dispatch`) live in
  `request.rs`, an external collaborator; `run` is parameterised over them.
-/

namespace RustFuse

/-- The max size of write requests from the kernel (`MAX_WRITE_SIZE` in
`session.rs`). -/
def MAX_WRITE_SIZE : Nat := 16*1024*1024

/-- Size of the buffer for reading a request from the kernel
(`BUFFER_SIZE` in `session.rs`). -/
def BUFFER_SIZE : Nat := MAX_WRITE_SIZE + 4096

/-- `libc` error code: no such file or directory. -/
def ENOENT : Int := 2

/-- `libc` error code: interrupted system call. -/
def EINTR : Int := 4

/-- `libc` error code: try again. -/
def EAGAIN : Int := 11

/-- `libc` error code: no such device. -/
def ENODEV : Int := 19

/-- The kernel channel handle for one mount point.  Its device state is
external; only the identity (mount path) matters for the session layer. -/
structure Channel where
  mountpoint : String
deriving DecidableEq

/-- A reply-sender handle, obtained from `Channel.sender()`. -/
structure ChannelSender where
  mountpoint : String
deriving DecidableEq

/-- `Channel::sender()`: a handle able to send one reply over this channel. -/
def Channel.sender (c : Channel) : ChannelSender :=
  { mountpoint := c.mountpoint }

/-- The session data structure (`struct Session<FS>` in `session.rs`). -/
structure Session (FS : Type) where
  filesystem : FS
  mountpoint : String
  ch : Channel
  proto_major : Nat
  proto_minor : Nat
  initialized : Bool
  destroyed : Bool
deriving DecidableEq

/-- `Session::new`: mount the filesystem.  `Channel::new` is external
(`channel.rs`), so its outcome is a parameter; `options` is forwarded to it
and otherwise unused.  A mount failure is a `panic!`, modelled as
`Except.error` with the panic message: no `Session` value is produced. -/
def Session.new {FS : Type} (filesystem : FS) (mountpoint : String)
    (options : List (List Nat)) (channelResult : Except Int Channel) :
    Except String (Session FS) :=
  let _ := options
  match channelResult with
  | Except.error err =>
      Except.error ("Unable to mount filesystem. Error " ++ toString err)
  | Except.ok ch =>
      Except.ok
        { filesystem := filesystem
          mountpoint := mountpoint
          ch := ch
          proto_major := 0
          proto_minor := 0
          initialized := false
          destroyed := false }

/-- What one blocking `Channel.receive` call yields: either one complete
kernel message (`ok data`) or an error code (`err errno`). -/
inductive ReadResult where
  | ok (data : List Nat)
  | err (errno : Int)
deriving DecidableEq

/-- An observable effect of one `run` loop iteration: bytes (with a reply
sender) handed to the external decoder, or a request dispatched to the
backend filesystem. -/
inductive Effect (Req : Type) where
  | handedToDecoder (sender : ChannelSender) (bytes : List Nat)
  | dispatched (req : Req)
deriving DecidableEq

/-- How a modelled `run` ends: `normalExit` is a `break` out of the loop
(return from `run`), `panicked e` terminates the execution context with a
descriptive failure naming error `e`, and `pending` means the modelled event
list was exhausted while the loop was still going (the real loop would block
in the next read). -/
inductive RunExit where
  | normalExit
  | panicked (errno : Int)
  | pending
deriving DecidableEq

/-- The full outcome of a modelled `run`: final session state, final buffer
contents, the observable effects in order, and how the loop ended. -/
structure RunResult (FS Req : Type) where
  session : Session FS
  buffer : List Nat
  effects : List (Effect Req)
  exit : RunExit
deriving DecidableEq

/-- Reading `data` into the reusable buffer overwrites its first
`data.length` bytes in place; bytes beyond that keep their previous
contents (leftovers of earlier, longer messages).  Length is preserved:
no reallocation. -/
def fillBuffer (buf data : List Nat) : List Nat :=
  data.take buf.length ++ buf.drop data.length

/-- The receive-dispatch loop body of `Session::run`, iterated over the
event list `evs`.  Mirrors the `match self.ch.receive(...)` arms in source
order: `ENOENT`/`EINTR`/`EAGAIN` continue, `ENODEV` breaks, any other error
panics, and a successful read of length `len` hands `buffer.slice_to(len)`
plus `self.ch.sender()` to the external decoder `request`; `None` breaks,
`Some req` dispatches and loops. -/
def runLoop {FS Req : Type} (request : ChannelSender → List Nat → Option Req)
    (dispatch : Req → Session FS → Session FS) :
    Session FS → List Nat → List ReadResult → RunResult FS Req
  | s, buf, [] => { session := s, buffer := buf, effects := [], exit := RunExit.pending }
  | s, buf, ReadResult.err e :: rest =>
      if e = ENOENT then runLoop request dispatch s buf rest
      else if e = EINTR then runLoop request dispatch s buf rest
      else if e = EAGAIN then runLoop request dispatch s buf rest
      else if e = ENODEV then
        { session := s, buffer := buf, effects := [], exit := RunExit.normalExit }
      else
        { session := s, buffer := buf, effects := [], exit := RunExit.panicked e }
  | s, buf, ReadResult.ok data :: rest =>
      let len := min data.length buf.length
      let buf2 := fillBuffer buf data
      let handed := buf2.take len
      match request s.ch.sender handed with
      | none =>
          { session := s, buffer := buf2,
            effects := [Effect.handedToDecoder s.ch.sender handed],
            exit := RunExit.normalExit }
      | some req =>
          let s2 := dispatch req s
          let res := runLoop request dispatch s2 buf2 rest
          { session := res.session, buffer := res.buffer,
            effects := Effect.handedToDecoder s.ch.sender handed ::
              Effect.dispatched req :: res.effects,
            exit := res.exit }

/-- `Session::run`: allocate the single receive buffer (zero-filled, of size
`BUFFER_SIZE`) once, then run the loop, reusing that buffer throughout. -/
def Session.run {FS Req : Type} (request : ChannelSender → List Nat → Option Req)
    (dispatch : Req → Session FS → Session FS) (s : Session FS)
    (evs : List ReadResult) : RunResult FS Req :=
  runLoop request dispatch s (List.replicate BUFFER_SIZE 0) evs

/-- An observable effect of `Drop for Session`: the `info!` log line, or the
release of the channel (whose own teardown performs the OS-level unmount). -/
inductive TeardownEffect where
  | logUnmounted (path : String)
  | channelRelease (path : String)
deriving DecidableEq

/-- `Drop for Session`: the drop body logs first; the `ch` field is dropped
after the body (Rust drops fields after `drop` returns), which is when the
actual unmount takes place. -/
def sessionDrop {FS : Type} (s : Session FS) : List TeardownEffect :=
  [TeardownEffect.logUnmounted s.mountpoint,
   TeardownEffect.channelRelease s.ch.mountpoint]

/-- The background session data structure: only the mount path is retained
by the handle. -/
structure BackgroundSession where
  mountpoint : String
deriving DecidableEq

/-- Outcome of `BackgroundSession::new`: the handle returned to the caller,
and the session value moved into the spawned background task. -/
structure SpawnResult (FS : Type) where
  handle : BackgroundSession
  moved : Session FS
deriving DecidableEq

/-- `BackgroundSession::new`: clone the session's mountpoint first, then
move the session into the background task; the handle keeps only the
cloned path. -/
def BackgroundSession.new {FS : Type} (se : Session FS) : SpawnResult FS :=
  let mountpoint := se.mountpoint
  { handle := { mountpoint := mountpoint }, moved := se }

/-- `Session::spawn`: run the session loop in a background task. -/
def Session.spawn {FS : Type} (s : Session FS) : SpawnResult FS :=
  BackgroundSession.new s

/-- An observable effect of `Drop for BackgroundSession`: the `info!` log
line, or the `channel::unmount` request for a path. -/
inductive DropAction where
  | logUnmounting (path : String)
  | unmountRequest (path : String)
deriving DecidableEq

/-- `Drop for BackgroundSession`: log, then issue one unmount request for
the tracked path.  The wrapped `Session` is not an input: the drop cannot
touch its state. -/
def backgroundSessionDrop (b : BackgroundSession) : List DropAction :=
  [DropAction.logUnmounting b.mountpoint,
   DropAction.unmountRequest b.mountpoint]

/-- Opcode classes relevant to the session's negotiation flags. -/
inductive Opcode where
  | init (major minor : Nat)
  | destroy
  | other (n : Nat)
deriving DecidableEq

/-- Modelled from the spec: the request dispatcher lives in `request.rs`,
which is not part of the given source; its effect on the session's
negotiation state is modelled from spec section 3 — `initialized` becomes
true exactly once, when the init operation completes; `destroyed` becomes
true exactly once, when the destroy operation completes, never before
`initialized`, and after `destroyed` no further operation is processed;
`proto_major`/`proto_minor` are populated during the init exchange. -/
def specDispatch {FS : Type} (op : Opcode) (s : Session FS) : Session FS :=
  if s.destroyed then s
  else
    match op with
    | Opcode.init major minor =>
        if s.initialized then s
        else { s with initialized := true, proto_major := major, proto_minor := minor }
    | Opcode.destroy =>
        if s.initialized then { s with destroyed := true } else s
    | Opcode.other _ => s

/-- Is this read event one the loop retries on (`ENOENT`, `EINTR`,
`EAGAIN`)? -/
def retryableEvent : ReadResult → Bool
  | ReadResult.err e => e == ENOENT || e == EINTR || e == EAGAIN
  | ReadResult.ok _ => false

/-- A concrete channel used to instantiate theorems on concrete inputs. -/
def sampleChannel : Channel := { mountpoint := "mnt" }

/-- A concrete freshly-constructed session over the trivial backend. -/
def sampleSession : Session Unit :=
  { filesystem := (), mountpoint := "mnt", ch := sampleChannel,
    proto_major := 0, proto_minor := 0, initialized := false, destroyed := false }

/-- A decoder that rejects every byte string (always malformed). -/
def noneDecoder : ChannelSender → List Nat → Option Unit := fun _ _ => none

/-- A decoder that accepts every byte string, as the bytes themselves. -/
def echoDecoder : ChannelSender → List Nat → Option (List Nat) := fun _ b => some b

/-- A dispatcher that leaves the session unchanged. -/
def idDispatch {FS Req : Type} : Req → Session FS → Session FS := fun _ s => s

/-! ### Helper lemmas about the loop -/

theorem runLoop_nil {FS Req : Type} (request : ChannelSender → List Nat → Option Req)
    (dispatch : Req → Session FS → Session FS) (s : Session FS) (buf : List Nat) :
    runLoop request dispatch s buf [] =
      { session := s, buffer := buf, effects := [], exit := RunExit.pending } := rfl

theorem runLoop_retry {FS Req : Type} (request : ChannelSender → List Nat → Option Req)
    (dispatch : Req → Session FS → Session FS) (s : Session FS) (buf : List Nat)
    (e : Int) (rest : List ReadResult) (h : e = ENOENT ∨ e = EINTR ∨ e = EAGAIN) :
    runLoop request dispatch s buf (ReadResult.err e :: rest) =
      runLoop request dispatch s buf rest := by
  rcases h with rfl | rfl | rfl <;> simp [runLoop, ENOENT, EINTR, EAGAIN]

theorem runLoop_enodev {FS Req : Type} (request : ChannelSender → List Nat → Option Req)
    (dispatch : Req → Session FS → Session FS) (s : Session FS) (buf : List Nat)
    (rest : List ReadResult) :
    runLoop request dispatch s buf (ReadResult.err ENODEV :: rest) =
      { session := s, buffer := buf, effects := [], exit := RunExit.normalExit } := by
  simp [runLoop, ENOENT, EINTR, EAGAIN, ENODEV]

theorem runLoop_panic {FS Req : Type} (request : ChannelSender → List Nat → Option Req)
    (dispatch : Req → Session FS → Session FS) (s : Session FS) (buf : List Nat)
    (e : Int) (rest : List ReadResult)
    (h1 : e ≠ ENOENT) (h2 : e ≠ EINTR) (h3 : e ≠ EAGAIN) (h4 : e ≠ ENODEV) :
    runLoop request dispatch s buf (ReadResult.err e :: rest) =
      { session := s, buffer := buf, effects := [], exit := RunExit.panicked e } := by
  simp [runLoop, h1, h2, h3, h4]

theorem runLoop_ok_none {FS Req : Type} (request : ChannelSender → List Nat → Option Req)
    (dispatch : Req → Session FS → Session FS) (s : Session FS) (buf : List Nat)
    (data : List Nat) (rest : List ReadResult)
    (h : request s.ch.sender
        ((fillBuffer buf data).take (min data.length buf.length)) = none) :
    runLoop request dispatch s buf (ReadResult.ok data :: rest) =
      { session := s, buffer := fillBuffer buf data,
        effects := [Effect.handedToDecoder s.ch.sender
          ((fillBuffer buf data).take (min data.length buf.length))],
        exit := RunExit.normalExit } := by
  simp [runLoop, h]

theorem runLoop_ok_some {FS Req : Type} (request : ChannelSender → List Nat → Option Req)
    (dispatch : Req → Session FS → Session FS) (s : Session FS) (buf : List Nat)
    (data : List Nat) (rest : List ReadResult) (req : Req)
    (h : request s.ch.sender
        ((fillBuffer buf data).take (min data.length buf.length)) = some req) :
    runLoop request dispatch s buf (ReadResult.ok data :: rest) =
      { session := (runLoop request dispatch (dispatch req s) (fillBuffer buf data) rest).session,
        buffer := (runLoop request dispatch (dispatch req s) (fillBuffer buf data) rest).buffer,
        effects := Effect.handedToDecoder s.ch.sender
            ((fillBuffer buf data).take (min data.length buf.length)) ::
          Effect.dispatched req ::
            (runLoop request dispatch (dispatch req s) (fillBuffer buf data) rest).effects,
        exit := (runLoop request dispatch (dispatch req s) (fillBuffer buf data) rest).exit } := by
  simp [runLoop, h]

theorem fillBuffer_length (buf data : List Nat) :
    (fillBuffer buf data).length = buf.length := by
  simp [fillBuffer]
  omega

theorem fillBuffer_take (buf data : List Nat) (h : data.length ≤ buf.length) :
    (fillBuffer buf data).take data.length = data := by
  have htake : data.take buf.length = data := List.take_of_length_le h
  have : fillBuffer buf data = data ++ buf.drop data.length := by
    simp [fillBuffer, htake]
  rw [this, List.take_append_of_le_length (le_refl data.length)]
  simp

theorem retryable_cases (ev : ReadResult) (h : retryableEvent ev = true) :
    ∃ e, ev = ReadResult.err e ∧ (e = ENOENT ∨ e = EINTR ∨ e = EAGAIN) := by
  cases ev with
  | ok data => simp [retryableEvent] at h
  | err e =>
    refine ⟨e, rfl, ?_⟩
    simp [retryableEvent] at h
    tauto

theorem runLoop_retryList {FS Req : Type} (request : ChannelSender → List Nat → Option Req)
    (dispatch : Req → Session FS → Session FS) :
    ∀ (retries : List ReadResult), (∀ ev ∈ retries, retryableEvent ev = true) →
      ∀ (s : Session FS) (buf : List Nat) (rest : List ReadResult),
        runLoop request dispatch s buf (retries ++ rest) =
          runLoop request dispatch s buf rest := by
  intro retries
  induction retries with
  | nil => intro _ s buf rest; rfl
  | cons ev tl ih =>
    intro h s buf rest
    obtain ⟨e, rfl, he⟩ := retryable_cases ev (h ev (List.mem_cons_self ev tl))
    rw [List.cons_append, runLoop_retry request dispatch s buf e (tl ++ rest) he]
    exact ih (fun x hx => h x (List.mem_cons_of_mem _ hx)) s buf rest

theorem runLoop_buffer_length {FS Req : Type} (request : ChannelSender → List Nat → Option Req)
    (dispatch : Req → Session FS → Session FS) :
    ∀ (evs : List ReadResult) (s : Session FS) (buf : List Nat),
      (runLoop request dispatch s buf evs).buffer.length = buf.length := by
  intro evs
  induction evs with
  | nil => intro s buf; rfl
  | cons ev rest ih =>
    intro s buf
    cases ev with
    | err e =>
      by_cases h1 : e = ENOENT
      · rw [runLoop_retry request dispatch s buf e rest (Or.inl h1)]; exact ih s buf
      by_cases h2 : e = EINTR
      · rw [runLoop_retry request dispatch s buf e rest (Or.inr (Or.inl h2))]; exact ih s buf
      by_cases h3 : e = EAGAIN
      · rw [runLoop_retry request dispatch s buf e rest (Or.inr (Or.inr h3))]; exact ih s buf
      by_cases h4 : e = ENODEV
      · subst h4; rw [runLoop_enodev]
      · rw [runLoop_panic request dispatch s buf e rest h1 h2 h3 h4]
    | ok data =>
      cases hreq : request s.ch.sender
          ((fillBuffer buf data).take (min data.length buf.length)) with
      | none =>
        rw [runLoop_ok_none request dispatch s buf data rest hreq]
        exact fillBuffer_length buf data
      | some req =>
        rw [runLoop_ok_some request dispatch s buf data rest req hreq]
        calc (runLoop request dispatch (dispatch req s) (fillBuffer buf data) rest).buffer.length
            = (fillBuffer buf data).length := ih (dispatch req s) (fillBuffer buf data)
          _ = buf.length := fillBuffer_length buf data

/-! ### Claim theorems -/

/-- Claim C1: in the receive-dispatch loop, every failed read is classified
exactly as: ENOENT, EINTR and EAGAIN make the loop immediately retry the
read with the same buffer and no other effect; ENODEV exits the loop
normally with no further backend call; any other error code terminates the
execution context running the loop with a descriptive failure (panic). -/
theorem claim_c1_error_classification {FS Req : Type}
    (request : ChannelSender → List Nat → Option Req)
    (dispatch : Req → Session FS → Session FS)
    (s : Session FS) (buf : List Nat) (e : Int) (rest : List ReadResult) :
    ((e = ENOENT ∨ e = EINTR ∨ e = EAGAIN) →
      runLoop request dispatch s buf (ReadResult.err e :: rest) =
        runLoop request dispatch s buf rest)
    ∧ (e = ENODEV →
      runLoop request dispatch s buf (ReadResult.err e :: rest) =
        { session := s, buffer := buf, effects := [], exit := RunExit.normalExit })
    ∧ (e ≠ ENOENT → e ≠ EINTR → e ≠ EAGAIN → e ≠ ENODEV →
      runLoop request dispatch s buf (ReadResult.err e :: rest) =
        { session := s, buffer := buf, effects := [], exit := RunExit.panicked e }) := by
  refine ⟨fun h => runLoop_retry request dispatch s buf e rest h, fun h => ?_,
    fun h1 h2 h3 h4 => runLoop_panic request dispatch s buf e rest h1 h2 h3 h4⟩
  subst h
  exact runLoop_enodev request dispatch s buf rest

/-- Concrete instantiation of C1 at each of the three classes: a retry on
EINTR, a normal exit on ENODEV, and a panic on EIO (code 5). -/
theorem claim_c1_witness :
    (runLoop noneDecoder idDispatch sampleSession [0, 0]
        [ReadResult.err 4, ReadResult.err 19] =
      runLoop noneDecoder idDispatch sampleSession [0, 0] [ReadResult.err 19])
    ∧ (runLoop noneDecoder idDispatch sampleSession [0, 0] [ReadResult.err 19] =
      { session := sampleSession, buffer := [0, 0], effects := [],
        exit := RunExit.normalExit })
    ∧ (runLoop noneDecoder idDispatch sampleSession [0, 0] [ReadResult.err 5] =
      { session := sampleSession, buffer := [0, 0], effects := [],
        exit := RunExit.panicked 5 }) :=
  ⟨(claim_c1_error_classification noneDecoder idDispatch sampleSession [0, 0] 4
      [ReadResult.err 19]).1 (by decide),
   (claim_c1_error_classification noneDecoder idDispatch sampleSession [0, 0] 19
      []).2.1 (by decide),
   (claim_c1_error_classification noneDecoder idDispatch sampleSession [0, 0] 5
      []).2.2 (by decide) (by decide) (by decide) (by decide)⟩

/-- Claim C2: Session construction either fails with the descriptive panic
message when the channel mount fails — never yielding a partial Session —
or returns a Session whose proto_major and proto_minor are the sentinel 0
and whose initialized and destroyed flags are both false. -/
theorem claim_c2_new_contract {FS : Type} (filesystem : FS) (mountpoint : String)
    (options : List (List Nat)) (channelResult : Except Int Channel) :
    (∀ e, channelResult = Except.error e →
      Session.new filesystem mountpoint options channelResult =
        Except.error ("Unable to mount filesystem. Error " ++ toString e))
    ∧ (∀ ch, channelResult = Except.ok ch →
      Session.new filesystem mountpoint options channelResult =
        Except.ok { filesystem := filesystem
                    mountpoint := mountpoint
                    ch := ch
                    proto_major := 0
                    proto_minor := 0
                    initialized := false
                    destroyed := false })
    ∧ (∀ s, Session.new filesystem mountpoint options channelResult = Except.ok s →
      s.proto_major = 0 ∧ s.proto_minor = 0 ∧ s.initialized = false ∧
        s.destroyed = false) := by
  refine ⟨fun e he => ?_, fun ch hch => ?_, fun s hs => ?_⟩
  · subst he; rfl
  · subst hch; rfl
  · cases channelResult with
    | error e => simp [Session.new] at hs
    | ok ch =>
      simp [Session.new] at hs
      subst hs
      exact ⟨rfl, rfl, rfl, rfl⟩

/-- Concrete instantiation of C2: a failed mount yields the panic message,
a successful mount yields the fully initialised Session record. -/
theorem claim_c2_witness :
    (Session.new () "mnt" [] (Except.error 13) =
      (Except.error "Unable to mount filesystem. Error 13" :
        Except String (Session Unit)))
    ∧ Session.new () "mnt" [] (Except.ok sampleChannel) = Except.ok sampleSession :=
  ⟨(claim_c2_new_contract () "mnt" [] (Except.error 13)).1 13 rfl,
   (claim_c2_new_contract () "mnt" [] (Except.ok sampleChannel)).2.1
      sampleChannel rfl⟩

/-- Claim C3: a successful read whose bytes do not decode makes the loop
exit exactly as in the clean-unmount (ENODEV) case: normal return, no
backend method invoked for that message or afterwards, session untouched;
and a retryable-error read followed by a malformed message yields one retry
then a clean exit with zero backend calls. -/
theorem claim_c3_malformed_exit {FS Req : Type}
    (request : ChannelSender → List Nat → Option Req)
    (dispatch : Req → Session FS → Session FS) (s : Session FS)
    (buf data : List Nat) (rest : List ReadResult)
    (hdec : request s.ch.sender
        ((fillBuffer buf data).take (min data.length buf.length)) = none) :
    ((runLoop request dispatch s buf (ReadResult.ok data :: rest)).exit =
        RunExit.normalExit
      ∧ (runLoop request dispatch s buf (ReadResult.err ENODEV :: rest)).exit =
        RunExit.normalExit
      ∧ (∀ r : Req, Effect.dispatched r ∉
          (runLoop request dispatch s buf (ReadResult.ok data :: rest)).effects)
      ∧ (runLoop request dispatch s buf (ReadResult.ok data :: rest)).session = s)
    ∧ ∀ e, (e = ENOENT ∨ e = EINTR ∨ e = EAGAIN) →
      (runLoop request dispatch s buf
          (ReadResult.err e :: ReadResult.ok data :: rest)).exit = RunExit.normalExit
      ∧ ∀ r : Req, Effect.dispatched r ∉
          (runLoop request dispatch s buf
            (ReadResult.err e :: ReadResult.ok data :: rest)).effects := by
  have hnone := runLoop_ok_none request dispatch s buf data rest hdec
  refine ⟨⟨by rw [hnone], by rw [runLoop_enodev], fun r => by rw [hnone]; simp,
    by rw [hnone]⟩, fun e he => ?_⟩
  rw [runLoop_retry request dispatch s buf e (ReadResult.ok data :: rest) he, hnone]
  exact ⟨rfl, fun r => by simp⟩

/-- Concrete instantiation of C3: against an always-rejecting decoder, an
EAGAIN read followed by a malformed message retries once then exits
normally with no dispatched effect. -/
theorem claim_c3_witness :
    (runLoop noneDecoder idDispatch sampleSession [0, 0]
        [ReadResult.err 11, ReadResult.ok [1]]).exit = RunExit.normalExit
    ∧ ∀ r : Unit, Effect.dispatched r ∉
        (runLoop noneDecoder idDispatch sampleSession [0, 0]
          [ReadResult.err 11, ReadResult.ok [1]]).effects :=
  (claim_c3_malformed_exit noneDecoder idDispatch sampleSession [0, 0] [1] []
    rfl).2 11 (by decide)

/-- Claim C4, as stated, is false: at a concrete session the teardown log
line is emitted before the channel release, so the last observable teardown
effect is the channel release, not the log line. -/
theorem claim_c4_counterexample :
    (sessionDrop sampleSession).getLast? =
      some (TeardownEffect.channelRelease "mnt")
    ∧ (sessionDrop sampleSession).getLast? ≠
      some (TeardownEffect.logUnmounted "mnt")
    ∧ sessionDrop sampleSession =
      [TeardownEffect.logUnmounted "mnt", TeardownEffect.channelRelease "mnt"] := by
  decide

/-- Claim C4 (amended): during Session teardown the log line naming the
mount path is emitted first, before the channel release that performs the
OS-level unmount, which is the last observable effect. -/
theorem claim_c4_amended_log_first {FS : Type} (s : Session FS) :
    sessionDrop s = [TeardownEffect.logUnmounted s.mountpoint,
      TeardownEffect.channelRelease s.ch.mountpoint] := rfl

/-- Claim C5: dropping a BackgroundSession issues exactly one unmount
request, for the path it tracks; that path is a copy of the wrapped
Session's mountpoint taken before the Session is moved onto the background
task; and the drop is a function of the handle alone, performing no other
action on the Session's state (the moved Session is returned unchanged by
the spawn). -/
theorem claim_c5_background_drop {FS : Type} (se : Session FS)
    (b : BackgroundSession) :
    ((backgroundSessionDrop b).countP
        (fun a => match a with
          | DropAction.unmountRequest _ => true
          | DropAction.logUnmounting _ => false) = 1
      ∧ DropAction.unmountRequest b.mountpoint ∈ backgroundSessionDrop b
      ∧ ∀ p, DropAction.unmountRequest p ∈ backgroundSessionDrop b →
          p = b.mountpoint)
    ∧ (BackgroundSession.new se).handle.mountpoint = se.mountpoint
    ∧ (BackgroundSession.new se).moved = se := by
  refine ⟨⟨?_, ?_, ?_⟩, rfl, rfl⟩
  · simp [backgroundSessionDrop]
  · simp [backgroundSessionDrop]
  · intro p hp
    simp [backgroundSessionDrop] at hp
    exact hp


/-- Concrete instantiation of C5: dropping the handle for a concrete mount
issues exactly one unmount request, and the handle spawned from the sample
session tracks that session's mountpoint. -/
theorem claim_c5_witness :
    (backgroundSessionDrop { mountpoint := "mnt" }).countP
        (fun a => match a with
          | DropAction.unmountRequest _ => true
          | DropAction.logUnmounting _ => false) = 1
    ∧ (BackgroundSession.new sampleSession).handle.mountpoint =
      sampleSession.mountpoint :=
  ⟨(claim_c5_background_drop sampleSession { mountpoint := "mnt" }).1.1,
   (claim_c5_background_drop sampleSession
      { mountpoint := "mnt" }).2.1⟩

/-- Claim C6: for every sequence of reads classified as retryable, the loop
goes on to issue the subsequent reads (the retries are absorbed with no
effect), leaving the Session's initialized flag, destroyed flag,
proto_major, proto_minor and the backend filesystem state unaltered. -/
theorem claim_c6_retry_frame {FS Req : Type}
    (request : ChannelSender → List Nat → Option Req)
    (dispatch : Req → Session FS → Session FS)
    (s : Session FS) (buf : List Nat) (retries rest : List ReadResult)
    (h : ∀ ev ∈ retries, retryableEvent ev = true) :
    runLoop request dispatch s buf (retries ++ rest) =
      runLoop request dispatch s buf rest
    ∧ runLoop request dispatch s buf retries =
      { session := s, buffer := buf, effects := [], exit := RunExit.pending }
    ∧ (runLoop request dispatch s buf retries).session.initialized = s.initialized
    ∧ (runLoop request dispatch s buf retries).session.destroyed = s.destroyed
    ∧ (runLoop request dispatch s buf retries).session.proto_major = s.proto_major
    ∧ (runLoop request dispatch s buf retries).session.proto_minor = s.proto_minor
    ∧ (runLoop request dispatch s buf retries).session.filesystem = s.filesystem := by
  have h2 : runLoop request dispatch s buf retries =
      { session := s, buffer := buf, effects := [], exit := RunExit.pending } := by
    have := runLoop_retryList request dispatch retries h s buf []
    rw [List.append_nil] at this
    rw [this, runLoop_nil]
  exact ⟨runLoop_retryList request dispatch retries h s buf rest, h2,
    by rw [h2], by rw [h2], by rw [h2], by rw [h2], by rw [h2]⟩

/-- Concrete instantiation of C6: a burst of ENOENT, EINTR and EAGAIN reads
is absorbed without touching the session, and a subsequent ENODEV read is
then processed. -/
theorem claim_c6_witness :
    runLoop noneDecoder idDispatch sampleSession [0]
        ([ReadResult.err 2, ReadResult.err 4, ReadResult.err 11] ++
          [ReadResult.err 19]) =
      runLoop noneDecoder idDispatch sampleSession [0] [ReadResult.err 19]
    ∧ runLoop noneDecoder idDispatch sampleSession [0]
        [ReadResult.err 2, ReadResult.err 4, ReadResult.err 11] =
      { session := sampleSession, buffer := [0], effects := [],
        exit := RunExit.pending } := by
  have h := claim_c6_retry_frame noneDecoder idDispatch sampleSession [0]
    [ReadResult.err 2, ReadResult.err 4, ReadResult.err 11] [ReadResult.err 19]
    (by decide)
  exact ⟨h.1, h.2.1⟩

/-- Every byte string handed to the decoder during a run is exactly the
data of one successfully-read message, provided every message fits in the
buffer: stale suffix bytes of the reused buffer are never handed over. -/
theorem runLoop_handed_is_message {FS Req : Type}
    (request : ChannelSender → List Nat → Option Req)
    (dispatch : Req → Session FS → Session FS) :
    ∀ (evs : List ReadResult) (s : Session FS) (buf : List Nat),
      (∀ d, ReadResult.ok d ∈ evs → d.length ≤ buf.length) →
      ∀ (sender : ChannelSender) (b : List Nat),
        Effect.handedToDecoder sender b ∈
          (runLoop request dispatch s buf evs).effects →
        ReadResult.ok b ∈ evs := by
  intro evs
  induction evs with
  | nil => intro s buf _ sender b hb; rw [runLoop_nil] at hb; simp at hb
  | cons ev rest ih =>
    intro s buf hfit sender b hb
    cases ev with
    | err e =>
      by_cases h1 : e = ENOENT
      · rw [runLoop_retry request dispatch s buf e rest (Or.inl h1)] at hb
        exact List.mem_cons_of_mem _
          (ih s buf (fun d hd => hfit d (List.mem_cons_of_mem _ hd)) sender b hb)
      by_cases h2 : e = EINTR
      · rw [runLoop_retry request dispatch s buf e rest (Or.inr (Or.inl h2))] at hb
        exact List.mem_cons_of_mem _
          (ih s buf (fun d hd => hfit d (List.mem_cons_of_mem _ hd)) sender b hb)
      by_cases h3 : e = EAGAIN
      · rw [runLoop_retry request dispatch s buf e rest (Or.inr (Or.inr h3))] at hb
        exact List.mem_cons_of_mem _
          (ih s buf (fun d hd => hfit d (List.mem_cons_of_mem _ hd)) sender b hb)
      by_cases h4 : e = ENODEV
      · subst h4; rw [runLoop_enodev] at hb; simp at hb
      · rw [runLoop_panic request dispatch s buf e rest h1 h2 h3 h4] at hb
        simp at hb
    | ok data =>
      have hdata : data.length ≤ buf.length :=
        hfit data (List.mem_cons_self _ _)
      have hmin : min data.length buf.length = data.length := Nat.min_eq_left hdata
      have htake : (fillBuffer buf data).take (min data.length buf.length) = data := by
        rw [hmin]; exact fillBuffer_take buf data hdata
      cases hreq : request s.ch.sender
          ((fillBuffer buf data).take (min data.length buf.length)) with
      | none =>
        rw [runLoop_ok_none request dispatch s buf data rest hreq] at hb
        simp at hb
        rw [htake] at hb
        rw [hb.2]
        exact List.mem_cons_self _ _
      | some req =>
        rw [runLoop_ok_some request dispatch s buf data rest req hreq] at hb
        simp at hb
        rcases hb with ⟨_, hb2⟩ | hb
        · rw [htake] at hb2
          rw [hb2]
          exact List.mem_cons_self _ _
        · refine List.mem_cons_of_mem _ (ih (dispatch req s) (fillBuffer buf data)
            (fun d hd => ?_) sender b hb)
          rw [fillBuffer_length]
          exact hfit d (List.mem_cons_of_mem _ hd)

/-- Claim C7: on a successful read of length L the decoder receives exactly
the filled prefix 0..L of the reusable buffer — i.e. the message bytes just
read — together with a reply sender freshly obtained from the session's
channel; bytes of the buffer beyond L are never passed to the decoder. -/
theorem claim_c7_decoder_gets_filled_bytes {FS Req : Type}
    (request : ChannelSender → List Nat → Option Req)
    (dispatch : Req → Session FS → Session FS) :
    (∀ (s : Session FS) (buf data : List Nat) (rest : List ReadResult),
      data.length ≤ buf.length →
      (runLoop request dispatch s buf (ReadResult.ok data :: rest)).effects.head? =
        some (Effect.handedToDecoder s.ch.sender data))
    ∧ ∀ (s : Session FS) (buf : List Nat) (evs : List ReadResult),
        (∀ d, ReadResult.ok d ∈ evs → d.length ≤ buf.length) →
        ∀ (sender : ChannelSender) (b : List Nat),
          Effect.handedToDecoder sender b ∈
            (runLoop request dispatch s buf evs).effects →
          ReadResult.ok b ∈ evs := by
  constructor
  · intro s buf data rest hdata
    have hmin : min data.length buf.length = data.length := Nat.min_eq_left hdata
    have htake : (fillBuffer buf data).take (min data.length buf.length) = data := by
      rw [hmin]; exact fillBuffer_take buf data hdata
    cases hreq : request s.ch.sender
        ((fillBuffer buf data).take (min data.length buf.length)) with
    | none =>
      rw [runLoop_ok_none request dispatch s buf data rest hreq, htake]
      rfl
    | some req =>
      rw [runLoop_ok_some request dispatch s buf data rest req hreq, htake]
      rfl
  · intro s buf evs
    exact runLoop_handed_is_message request dispatch evs s buf

/-- Concrete instantiation of C7: with a two-byte stale buffer, a one-byte
message is handed to the decoder as exactly that one byte, and every byte
string that reaches the decoder during a concrete run is one of the read
messages. -/
theorem claim_c7_witness :
    (runLoop echoDecoder idDispatch sampleSession [9, 9]
        [ReadResult.ok [1]]).effects.head? =
      some (Effect.handedToDecoder sampleChannel.sender [1])
    ∧ ReadResult.ok [7] ∈ [ReadResult.ok [5], ReadResult.ok [7]] :=
  ⟨(claim_c7_decoder_gets_filled_bytes echoDecoder idDispatch).1 sampleSession [9, 9]
      [1] [] (by decide),
   (claim_c7_decoder_gets_filled_bytes echoDecoder idDispatch).2 sampleSession [0, 0]
      [ReadResult.ok [5], ReadResult.ok [7]]
      (by intro d hd; fin_cases hd <;> decide)
      sampleChannel.sender [7] (by decide)⟩

/-- Claim C8: the receive buffer allocated by run has size exactly
MAX_WRITE_SIZE + 4096 bytes with MAX_WRITE_SIZE = 16*1024*1024, run
allocates it once (zero-filled) and hands that same buffer to the loop,
and the loop preserves the buffer's length at every iteration (in-place
reuse, no reallocation). -/
theorem claim_c8_buffer_size {FS Req : Type}
    (request : ChannelSender → List Nat → Option Req)
    (dispatch : Req → Session FS → Session FS)
    (s : Session FS) (evs : List ReadResult) :
    MAX_WRITE_SIZE = 16*1024*1024
    ∧ BUFFER_SIZE = MAX_WRITE_SIZE + 4096
    ∧ Session.run request dispatch s evs =
      runLoop request dispatch s (List.replicate BUFFER_SIZE 0) evs
    ∧ (List.replicate BUFFER_SIZE (0 : Nat)).length = BUFFER_SIZE
    ∧ (Session.run request dispatch s evs).buffer.length = BUFFER_SIZE
    ∧ ∀ (s2 : Session FS) (buf : List Nat) (evs2 : List ReadResult),
        (runLoop request dispatch s2 buf evs2).buffer.length = buf.length := by
  refine ⟨rfl, rfl, rfl, by simp, ?_,
    fun s2 buf evs2 => runLoop_buffer_length request dispatch evs2 s2 buf⟩
  show (runLoop request dispatch s (List.replicate BUFFER_SIZE 0) evs).buffer.length
    = BUFFER_SIZE
  rw [runLoop_buffer_length request dispatch evs s (List.replicate BUFFER_SIZE 0)]
  simp

/-- The trace of session states produced by feeding a list of opcodes, one
at a time, through the (spec-modelled) dispatcher: the initial state
followed by each successor state. -/
def dispatchTrace {FS : Type} : Session FS → List Opcode → List (Session FS)
  | s, [] => [s]
  | s, op :: tl => s :: dispatchTrace (specDispatch op s) tl

theorem dispatchTrace_head {FS : Type} (s : Session FS) (ops : List Opcode) :
    (dispatchTrace s ops).head? = some s := by
  cases ops <;> rfl

theorem specDispatch_mono {FS : Type} (op : Opcode) (s : Session FS) :
    (s.initialized = true → (specDispatch op s).initialized = true)
    ∧ (s.destroyed = true → (specDispatch op s).destroyed = true)
    ∧ ((s.destroyed = true → s.initialized = true) →
        (specDispatch op s).destroyed = true →
          (specDispatch op s).initialized = true) := by
  cases op <;> simp [specDispatch] <;> split_ifs <;> simp_all

theorem dispatchTrace_invariant {FS : Type} :
    ∀ (ops : List Opcode) (s : Session FS),
      (s.destroyed = true → s.initialized = true) →
      List.Chain' (fun a b : Session FS =>
          (a.initialized = true → b.initialized = true) ∧
          (a.destroyed = true → b.destroyed = true)) (dispatchTrace s ops)
      ∧ ∀ st ∈ dispatchTrace s ops, st.destroyed = true → st.initialized = true := by
  intro ops
  induction ops with
  | nil =>
    intro s hs
    refine ⟨List.chain'_singleton s, ?_⟩
    intro st hst
    simp [dispatchTrace] at hst
    subst hst
    exact hs
  | cons op tl ih =>
    intro s hs
    obtain ⟨hchain, hinv⟩ := ih (specDispatch op s) ((specDispatch_mono op s).2.2 hs)
    constructor
    · show List.Chain' _ (s :: dispatchTrace (specDispatch op s) tl)
      rw [List.chain'_cons']
      refine ⟨?_, hchain⟩
      intro y hy
      rw [dispatchTrace_head] at hy
      simp at hy
      subst hy
      exact ⟨(specDispatch_mono op s).1, (specDispatch_mono op s).2.1⟩
    · intro st hst
      rcases List.mem_cons.mp hst with rfl | hst2
      · exact hs
      · exact hinv st hst2

/-- Claim C9: over the life of one Session, the initialized and destroyed
flags are monotonic — along the whole trace of states produced by
dispatching any sequence of operations from a freshly constructed Session,
each flag only goes from false to true and is never reset, and destroyed is
never true before initialized is true.  The dispatcher's effect on the
flags is modelled from the spec, since it lives outside the given source. -/
theorem claim_c9_flags_monotonic {FS : Type} (filesystem : FS)
    (mountpoint : String) (options : List (List Nat))
    (channelResult : Except Int Channel) (s0 : Session FS)
    (h0 : Session.new filesystem mountpoint options channelResult = Except.ok s0)
    (ops : List Opcode) :
    List.Chain' (fun a b : Session FS =>
        (a.initialized = true → b.initialized = true) ∧
        (a.destroyed = true → b.destroyed = true)) (dispatchTrace s0 ops)
    ∧ ∀ st ∈ dispatchTrace s0 ops, st.destroyed = true → st.initialized = true := by
  have hflags : s0.destroyed = false := by
    cases channelResult with
    | error e => simp [Session.new] at h0
    | ok ch =>
      simp [Session.new] at h0
      subst h0
      rfl
  refine dispatchTrace_invariant ops s0 ?_
  intro h
  rw [hflags] at h
  exact absurd h (by simp)

/-- Concrete instantiation of C9: the state trace of a freshly mounted
session through an init, an unrelated operation and a destroy is monotonic
in both flags, with destroyed only ever true after initialized. -/
theorem claim_c9_witness :
    List.Chain' (fun a b : Session Unit =>
        (a.initialized = true → b.initialized = true) ∧
        (a.destroyed = true → b.destroyed = true))
      (dispatchTrace sampleSession
        [Opcode.init 7 8, Opcode.other 1, Opcode.destroy])
    ∧ ∀ st ∈ dispatchTrace sampleSession
        [Opcode.init 7 8, Opcode.other 1, Opcode.destroy],
        st.destroyed = true → st.initialized = true :=
  claim_c9_flags_monotonic () "mnt" [] (Except.ok sampleChannel) sampleSession rfl
    [Opcode.init 7 8, Opcode.other 1, Opcode.destroy]

/-- A panic exit of the loop always comes from a read error that is neither
retryable nor ENODEV, occurring in the event list. -/
theorem runLoop_panicked_mem {FS Req : Type}
    (request : ChannelSender → List Nat → Option Req)
    (dispatch : Req → Session FS → Session FS) :
    ∀ (evs : List ReadResult) (s : Session FS) (buf : List Nat) (e : Int),
      (runLoop request dispatch s buf evs).exit = RunExit.panicked e →
      ReadResult.err e ∈ evs ∧ retryableEvent (ReadResult.err e) = false ∧
        e ≠ ENODEV := by
  intro evs
  induction evs with
  | nil => intro s buf e he; rw [runLoop_nil] at he; simp at he
  | cons ev rest ih =>
    intro s buf e he
    cases ev with
    | err e2 =>
      by_cases h1 : e2 = ENOENT
      · rw [runLoop_retry request dispatch s buf e2 rest (Or.inl h1)] at he
        obtain ⟨hm, hr, hn⟩ := ih s buf e he
        exact ⟨List.mem_cons_of_mem _ hm, hr, hn⟩
      by_cases h2 : e2 = EINTR
      · rw [runLoop_retry request dispatch s buf e2 rest (Or.inr (Or.inl h2))] at he
        obtain ⟨hm, hr, hn⟩ := ih s buf e he
        exact ⟨List.mem_cons_of_mem _ hm, hr, hn⟩
      by_cases h3 : e2 = EAGAIN
      · rw [runLoop_retry request dispatch s buf e2 rest (Or.inr (Or.inr h3))] at he
        obtain ⟨hm, hr, hn⟩ := ih s buf e he
        exact ⟨List.mem_cons_of_mem _ hm, hr, hn⟩
      by_cases h4 : e2 = ENODEV
      · subst h4; rw [runLoop_enodev] at he; simp at he
      · rw [runLoop_panic request dispatch s buf e2 rest h1 h2 h3 h4] at he
        simp at he
        subst he
        refine ⟨List.mem_cons_self _ _, ?_, h4⟩
        simp [retryableEvent]
        tauto
    | ok data =>
      cases hreq : request s.ch.sender
          ((fillBuffer buf data).take (min data.length buf.length)) with
      | none =>
        rw [runLoop_ok_none request dispatch s buf data rest hreq] at he
        simp at he
      | some req =>
        rw [runLoop_ok_some request dispatch s buf data rest req hreq] at he
        obtain ⟨hm, hr, hn⟩ := ih (dispatch req s) (fillBuffer buf data) e he
        exact ⟨List.mem_cons_of_mem _ hm, hr, hn⟩

/-- A normal exit of the loop always has a cause: the event list splits
into a prefix that keeps the loop going, followed by either an ENODEV read
error or a successful read whose bytes the decoder rejects at that point. -/
theorem runLoop_normal_cause {FS Req : Type}
    (request : ChannelSender → List Nat → Option Req)
    (dispatch : Req → Session FS → Session FS) :
    ∀ (evs : List ReadResult) (s : Session FS) (buf : List Nat),
      (runLoop request dispatch s buf evs).exit = RunExit.normalExit →
      ∃ pre e tl, evs = pre ++ e :: tl ∧
        (runLoop request dispatch s buf pre).exit = RunExit.pending ∧
        (e = ReadResult.err ENODEV ∨
          ∃ d, e = ReadResult.ok d ∧
            request (runLoop request dispatch s buf pre).session.ch.sender
              ((fillBuffer (runLoop request dispatch s buf pre).buffer d).take
                (min d.length
                  (runLoop request dispatch s buf pre).buffer.length)) = none) := by
  intro evs
  induction evs with
  | nil => intro s buf he; rw [runLoop_nil] at he; simp at he
  | cons ev rest ih =>
    intro s buf he
    cases ev with
    | err e2 =>
      by_cases hretry : e2 = ENOENT ∨ e2 = EINTR ∨ e2 = EAGAIN
      · have hstep := runLoop_retry request dispatch s buf e2 rest hretry
        rw [hstep] at he
        obtain ⟨pre, e, tl, hsplit, hpend, hcause⟩ := ih s buf he
        refine ⟨ReadResult.err e2 :: pre, e, tl, by rw [hsplit]; rfl, ?_, ?_⟩
        · rw [runLoop_retry request dispatch s buf e2 pre hretry]
          exact hpend
        · rw [runLoop_retry request dispatch s buf e2 pre hretry]
          exact hcause
      · push_neg at hretry
        obtain ⟨h1, h2, h3⟩ := hretry
        by_cases h4 : e2 = ENODEV
        · subst h4
          exact ⟨[], ReadResult.err ENODEV, rest, rfl, rfl, Or.inl rfl⟩
        · rw [runLoop_panic request dispatch s buf e2 rest h1 h2 h3 h4] at he
          simp at he
    | ok data =>
      cases hreq : request s.ch.sender
          ((fillBuffer buf data).take (min data.length buf.length)) with
      | none =>
        refine ⟨[], ReadResult.ok data, rest, rfl, rfl, Or.inr ⟨data, rfl, ?_⟩⟩
        rw [runLoop_nil]
        exact hreq
      | some req =>
        have hstep := runLoop_ok_some request dispatch s buf data rest req hreq
        rw [hstep] at he
        simp at he
        obtain ⟨pre, e, tl, hsplit, hpend, hcause⟩ :=
          ih (dispatch req s) (fillBuffer buf data) he
        refine ⟨ReadResult.ok data :: pre, e, tl, by rw [hsplit]; rfl, ?_, ?_⟩
        · rw [runLoop_ok_some request dispatch s buf data pre req hreq]
          exact hpend
        · rw [runLoop_ok_some request dispatch s buf data pre req hreq]
          exact hcause

/-- Claim C10: run returns normally only when a read fails with ENODEV or a
successful read fails to decode, and panics exactly on any other read
error; there is no retry limit or backoff, so on a channel yielding only
retryable results forever the loop never terminates — every finite prefix
of such a stream leaves it still reading. -/
theorem claim_c10_termination {FS Req : Type}
    (request : ChannelSender → List Nat → Option Req)
    (dispatch : Req → Session FS → Session FS)
    (s : Session FS) (buf : List Nat) :
    (∀ f : Nat → ReadResult, (∀ n, retryableEvent (f n) = true) →
      ∀ n, (runLoop request dispatch s buf ((List.range n).map f)).exit =
        RunExit.pending)
    ∧ (∀ evs e, (runLoop request dispatch s buf evs).exit = RunExit.panicked e →
      ReadResult.err e ∈ evs ∧ retryableEvent (ReadResult.err e) = false ∧
        e ≠ ENODEV)
    ∧ ∀ evs, (runLoop request dispatch s buf evs).exit = RunExit.normalExit →
      ∃ pre e tl, evs = pre ++ e :: tl ∧
        (runLoop request dispatch s buf pre).exit = RunExit.pending ∧
        (e = ReadResult.err ENODEV ∨
          ∃ d, e = ReadResult.ok d ∧
            request (runLoop request dispatch s buf pre).session.ch.sender
              ((fillBuffer (runLoop request dispatch s buf pre).buffer d).take
                (min d.length
                  (runLoop request dispatch s buf pre).buffer.length)) = none) := by
  refine ⟨fun f hf n => ?_, fun evs e => runLoop_panicked_mem request dispatch evs s buf e,
    fun evs => runLoop_normal_cause request dispatch evs s buf⟩
  have hall : ∀ ev ∈ (List.range n).map f, retryableEvent ev = true := by
    intro ev hev
    obtain ⟨i, _, rfl⟩ := List.mem_map.mp hev
    exact hf i
  have := runLoop_retryList request dispatch ((List.range n).map f) hall s buf []
  rw [List.append_nil] at this
  rw [this, runLoop_nil]

/-- Concrete instantiation of C10: three reads of an endlessly-EAGAIN
channel leave the loop still pending, and a run ending in a panic on EIO
exhibits the offending non-retryable, non-ENODEV error in its event list. -/
theorem claim_c10_witness :
    (runLoop noneDecoder idDispatch sampleSession [0]
        ((List.range 3).map (fun _ => ReadResult.err 11))).exit = RunExit.pending
    ∧ (ReadResult.err 5 ∈ [ReadResult.err 4, ReadResult.err 5] ∧
        retryableEvent (ReadResult.err 5) = false ∧ (5 : Int) ≠ ENODEV) :=
  ⟨(claim_c10_termination noneDecoder idDispatch sampleSession [0]).1
      (fun _ => ReadResult.err 11)
      (fun n => by show retryableEvent (ReadResult.err 11) = true; decide) 3,
   (claim_c10_termination noneDecoder idDispatch sampleSession [0]).2.1
      [ReadResult.err 4, ReadResult.err 5] 5 (by decide)⟩

end RustFuse
